import Mathlib

/-!
Verification development for qemubox, a directory-backed registry of
virtual-machine definitions.  The Rust sources `src/config.rs` and
`src/main.rs` are shallowly embedded below: paths are strings, the
filesystem state of the machines directory is an explicit list of
directory entries, and external processes (the disk-image tool and the
hypervisor) are recorded as events rather than spawned.
-/

/-! ### Path model (std::path::Path / PathBuf) -/

/-- Model of `Path::is_absolute` on Unix: the path starts with `/`. -/
def isAbsolute (p : String) : Bool :=
  match p.data with
  | '/' :: _ => true
  | _ => false

/-- Model of `Path::join`: an absolute right operand replaces the left one,
otherwise the right operand is appended with a separator as needed. -/
def pathJoin (a b : String) : String :=
  if isAbsolute b then b
  else if a.data.getLast? == some '/' || a.data.isEmpty then a ++ b
  else a ++ "/" ++ b

namespace config

/-! ### src/config.rs : configuration schema -/

/-- `config::VideoOption` (config.rs lines 25-32). -/
inductive VideoOption where
  | Std
  | VirtIo
  | Qxl
  | None
deriving DecidableEq, Repr

/-- `config::Machine` (config.rs lines 14-23).  `PathBuf` is modelled as a
string, `u32` as `Nat` (the claims involve no arithmetic overflow). -/
structure Machine where
  disk : String
  cpus : Nat
  memory : Nat
  kvm : Bool
  uefi : Bool
  video : VideoOption
deriving DecidableEq, Repr

/-- `config::Config` (config.rs lines 8-12). -/
structure Config where
  machine : Machine
deriving DecidableEq, Repr

/-- `Default for Machine` (config.rs lines 34-45). -/
def Machine.default : Machine :=
  { disk := "./disk.qcow2"
    cpus := 2
    memory := 2048
    kvm := true
    uefi := false
    video := VideoOption.Std }

/-- `Default for Config` (derived field-wise in config.rs line 8). -/
def Config.default : Config := { machine := Machine.default }

/-! ### TOML deserialization model

`toml::from_str::<Config>` first parses the text into a TOML document and
then runs the serde `Deserialize` derived for the repository's structs,
which carry `#[serde(deny_unknown_fields)]`.  The document is modelled
already parsed; a text that is not valid TOML is `FileContent.malformed`. -/

/-- A parsed TOML value. -/
inductive TomlValue where
  | str (s : String)
  | int (n : Int)
  | bool (b : Bool)
  | table (kvs : List (String × TomlValue))

/-- The result of `std::fs::read_to_string` on a config file, as far as
deserialization is concerned: either syntactically invalid TOML or a
parsed top-level table. -/
inductive FileContent where
  | malformed
  | toml (doc : List (String × TomlValue))

/-- serde deserialization of `VideoOption` with
`#[serde(rename_all = "lowercase")]` (config.rs lines 25-32). -/
def deserializeVideo : TomlValue → Except String VideoOption
  | TomlValue.str "std" => Except.ok VideoOption.Std
  | TomlValue.str "virtio" => Except.ok VideoOption.VirtIo
  | TomlValue.str "qxl" => Except.ok VideoOption.Qxl
  | TomlValue.str "none" => Except.ok VideoOption.None
  | _ => Except.error "invalid value for field video"

def asStr : TomlValue → Except String String
  | TomlValue.str s => Except.ok s
  | _ => Except.error "expected string"

def asNat : TomlValue → Except String Nat
  | TomlValue.int n => if n < 0 then Except.error "out of range" else Except.ok n.toNat
  | _ => Except.error "expected integer"

def asBool : TomlValue → Except String Bool
  | TomlValue.bool b => Except.ok b
  | _ => Except.error "expected boolean"

/-- The field names accepted by the derived `Deserialize` for
`config::Machine` (config.rs lines 16-22). -/
def knownMachineKeys : List String :=
  ["disk", "cpus", "memory", "kvm", "uefi", "video"]

def lookupKey (kvs : List (String × TomlValue)) (k : String) : Option TomlValue :=
  match kvs.find? (fun kv => kv.fst == k) with
  | some kv => some kv.snd
  | none => none

def requireKey (kvs : List (String × TomlValue)) (k : String)
    (f : TomlValue → Except String α) : Except String α :=
  match lookupKey kvs k with
  | some v => f v
  | none => Except.error ("missing field " ++ k)

/-- serde deserialization of `config::Machine` with
`#[serde(deny_unknown_fields)]` (config.rs lines 14-23): any key outside
the schema is a hard error; every schema field is required. -/
def deserializeMachine (kvs : List (String × TomlValue)) : Except String Machine :=
  match kvs.find? (fun kv => !(knownMachineKeys.contains kv.fst)) with
  | some kv => Except.error ("unknown field " ++ kv.fst)
  | none => do
    let disk ← requireKey kvs "disk" asStr
    let cpus ← requireKey kvs "cpus" asNat
    let memory ← requireKey kvs "memory" asNat
    let kvm ← requireKey kvs "kvm" asBool
    let uefi ← requireKey kvs "uefi" asBool
    let video ← requireKey kvs "video" deserializeVideo
    Except.ok { disk := disk, cpus := cpus, memory := memory,
                kvm := kvm, uefi := uefi, video := video }

/-- serde deserialization of `config::Config` with
`#[serde(deny_unknown_fields)]` (config.rs lines 8-12). -/
def deserializeConfig (doc : List (String × TomlValue)) : Except String Config :=
  match doc.find? (fun kv => kv.fst != "machine") with
  | some kv => Except.error ("unknown field " ++ kv.fst)
  | none =>
    match lookupKey doc "machine" with
    | some (TomlValue.table kvs) => (deserializeMachine kvs).map Config.mk
    | some _ => Except.error "invalid type for field machine"
    | none => Except.error "missing field machine"

/-- `toml::from_str::<Config>` on a read config file. -/
def fromStr : FileContent → Except String Config
  | FileContent.malformed => Except.error "TOML parse error"
  | FileContent.toml doc => deserializeConfig doc

/-! ### src/config.rs : Config::construct_launch_command -/

/-- The disk-path resolution inside `construct_launch_command`
(config.rs lines 67-71). -/
def resolvedDiskPath (cfg : Config) (containingDir : String) : String :=
  if isAbsolute cfg.machine.disk then cfg.machine.disk
  else pathJoin containingDir cfg.machine.disk

/-- The fixed read-only system firmware image passed for UEFI machines
(config.rs line 95). -/
def ovmfCodeArg : String :=
  "if=pflash,format=raw,readonly=on,file=/usr/share/edk2-ovmf/x64/OVMF_CODE.fd"

/-- The per-machine firmware variables drive (config.rs lines 84-90). -/
def ovmfVarsArg (containingDir : String) : String :=
  "if=pflash,format=raw,file=" ++ pathJoin containingDir "ovmf_vars.fd"

/-- The tokens pushed by the `match video` of config.rs lines 101-106. -/
def videoArgs : VideoOption → List String
  | VideoOption.Std => ["-vga", "std"]
  | VideoOption.VirtIo => ["-vga", "virtio"]
  | VideoOption.Qxl => ["-vga", "qxl"]
  | VideoOption.None => ["-vga", "none", "-nographic"]

/-- The tokens pushed by the `if let Some(cd_rom)` of config.rs
lines 108-111. -/
def cdRomArgs : Option String → List String
  | some p => ["-cdrom", p]
  | none => []

/-- `Config::construct_launch_command` (config.rs lines 48-119), as the
ordered argument list handed to `qemu-system-x86_64`. -/
def constructLaunchCommand (cfg : Config) (containingDir : String)
    (cdRom : Option String) : List String :=
  ["-smp", Nat.repr cfg.machine.cpus, "-m", Nat.repr cfg.machine.memory ++ "M"]
    ++ (if cfg.machine.kvm then ["-enable-kvm"] else [])
    ++ (if cfg.machine.uefi then
          ["-drive", ovmfCodeArg, "-drive", ovmfVarsArg containingDir]
        else [])
    ++ videoArgs cfg.machine.video
    ++ cdRomArgs cdRom
    ++ [resolvedDiskPath cfg containingDir]

end config

/-! ### src/main.rs : error taxonomy, registry scan, lifecycle operations -/

/-- `Error` (main.rs lines 165-173). -/
inductive Error where
  | NoHomeDirectory
  | ReadMachinesDirectoryFail
  | Deserialize (configPath : String) (msg : String)
  | NewMachineDirectoryExists
  | CreateMachineDirectoryFail
  | WriteMachineTomlFail
  | NoMachineByName
deriving DecidableEq, Repr

/-- One readable item of the machines directory: its base name, whether its
metadata says it is a directory, and the outcome of
`std::fs::read_to_string` on its `machine.toml` (`none` when the read
fails, e.g. the file is absent or unreadable). -/
structure DirEntry where
  name : String
  isDir : Bool
  config : Option config.FileContent

/-- The machines directory as `read_dir` yields it: a list of items, where
`none` stands for an item whose `DirEntry` or metadata could not be
obtained (the `Err` cases of main.rs lines 105-106). -/
abbrev DirListing := List (Option DirEntry)

/-- `Machine` of main.rs (lines 85-88), the registry entry built by
`get_machines`; named `MachineEntry` to avoid clashing with the config
struct of the same Rust name. -/
structure MachineEntry where
  name : String
  config : config.Config
deriving DecidableEq, Repr

/-- `get_machines` (main.rs lines 100-124) over an explicit directory
listing: skips unreadable items, non-directories and entries whose config
file cannot be read; fails fast with `Deserialize` naming the config file
when a read config fails to parse. -/
def getMachines (machinesDir : String) : DirListing → Except Error (List MachineEntry)
  | [] => Except.ok []
  | none :: rest => getMachines machinesDir rest
  | some e :: rest =>
    if e.isDir then
      match e.config with
      | none => getMachines machinesDir rest
      | some content =>
        match config.fromStr content with
        | Except.ok cfg =>
          (getMachines machinesDir rest).map
            (fun ms => { name := e.name, config := cfg } :: ms)
        | Except.error msg =>
          Except.error (Error.Deserialize
            (pathJoin (pathJoin machinesDir e.name) "machine.toml") msg)
    else getMachines machinesDir rest

/-- A spawned external process, recorded as events: `spawned` when the
child is started, `waited` when the parent blocks until it exits
(carrying the child's exit code). -/
inductive ProcEvent where
  | spawned (cmd : String) (args : List String)
  | waited (cmd : String) (exitCode : Int)
deriving DecidableEq, Repr

def ProcEvent.isWaited : ProcEvent → Bool
  | ProcEvent.waited _ _ => true
  | _ => false

/-- How an operation ends: a returned `Ok`, a returned `Err`, or a panic
(`unwrap`/`todo!`). -/
inductive Outcome (α : Type) where
  | ok (a : α)
  | err (e : Error)
  | panic (msg : String)
deriving DecidableEq, Repr

/-- `new_machine` (main.rs lines 127-163).  `snapshot` is the `read_dir`
listing used by the name pre-check; `fsAtCreate` is the set of names that
exist in the machines directory at the moment `std::fs::create_dir` runs
(it may differ from the snapshot under a concurrent creation), and
`create_dir` is exclusive: it fails when the target already exists.  The
function returns the operation outcome together with the events of the
external processes it left behind; note that the `qemu-img` child is
spawned but never waited on before `Ok` is returned (main.rs lines
150-162). -/
def newMachine (machinesDir : String) (snapshot : DirListing)
    (fsAtCreate : List String) (name : String) (diskSize : Nat) :
    Outcome Unit × List ProcEvent :=
  if snapshot.any (fun item => item.map DirEntry.name == some name) then
    (Outcome.err Error.NewMachineDirectoryExists, [])
  else if fsAtCreate.contains name then
    (Outcome.err Error.CreateMachineDirectoryFail, [])
  else
    (Outcome.ok (),
     [ProcEvent.spawned "qemu-img"
        ["create", "-f", "qcow2",
         pathJoin (pathJoin machinesDir name) "disk.qcow2",
         Nat.repr diskSize ++ "M"]])

/-- The `Machine` subcommands handled by main.rs lines 52-72. -/
inductive MachineCommand where
  | run
  | remove (yes : Bool)

/-- `std::fs::remove_dir_all` on the machine directory: the entry of that
name disappears from the listing. -/
def removeEntry (entries : DirListing) (name : String) : DirListing :=
  entries.filter (fun item =>
    match item with
    | some e => e.name != name
    | none => true)

/-- The full observable result of the `machine` operation. -/
structure MachineOpResult where
  outcome : Outcome Unit
  events : List ProcEvent
  entries : DirListing
  warnings : List String

/-- `machine` (main.rs lines 48-81).  A `get_machines` failure hits the
`Err(_) => todo!()` arm (line 77), i.e. a panic.  `Run` spawns the
hypervisor with the synthesized arguments (this revision of main.rs
passes no CD-ROM) and waits for it; `exitCode` is the code the child
exits with, and the `Ok(())` returned by the operation discards it.
`Remove` deletes the directory tree only when `yes` is set; otherwise it
prints a warning naming the path and mutates nothing. -/
def machineOp (machinesDir : String) (entries : DirListing) (name : String)
    (cmd : MachineCommand) (exitCode : Int) : MachineOpResult :=
  match getMachines machinesDir entries with
  | Except.error _ =>
    { outcome := Outcome.panic "not yet implemented"
      events := [], entries := entries, warnings := [] }
  | Except.ok machines =>
    match machines.find? (fun m => m.name == name) with
    | none =>
      { outcome := Outcome.err Error.NoMachineByName
        events := [], entries := entries, warnings := [] }
    | some m =>
      match cmd with
      | MachineCommand.run =>
        let args := config.constructLaunchCommand m.config
          (pathJoin machinesDir m.name) none
        { outcome := Outcome.ok ()
          events := [ProcEvent.spawned "qemu-system-x86_64" args,
                     ProcEvent.waited "qemu-system-x86_64" exitCode]
          entries := entries, warnings := [] }
      | MachineCommand.remove yes =>
        let dirToRemove := pathJoin machinesDir m.name
        if yes then
          { outcome := Outcome.ok (), events := []
            entries := removeEntry entries m.name, warnings := [] }
        else
          { outcome := Outcome.ok (), events := [], entries := entries
            warnings := ["are you sure? This will remove " ++ dirToRemove
              ++ " and all of its contents.\nRun with --yes to confirm."] }

/-- `ls` (main.rs lines 32-45): the listing it prints, one name per
machine, in registry order. -/
def lsOp (machinesDir : String) (entries : DirListing) :
    Except Error (List String) :=
  (getMachines machinesDir entries).map (fun ms => ms.map MachineEntry.name)

/-! ### Concrete fixtures used by witnesses -/

/-- A well-formed machine.toml document: the serialized form of the
default config. -/
def goodDoc : List (String × config.TomlValue) :=
  [("machine", config.TomlValue.table
     [("disk", config.TomlValue.str "./disk.qcow2"),
      ("cpus", config.TomlValue.int 2),
      ("memory", config.TomlValue.int 2048),
      ("kvm", config.TomlValue.bool true),
      ("uefi", config.TomlValue.bool false),
      ("video", config.TomlValue.str "std")])]

/-- A machine directory entry named `vm1` holding `goodDoc`. -/
def goodEntry : DirEntry :=
  { name := "vm1", isDir := true,
    config := some (config.FileContent.toml goodDoc) }

/-- A machines directory holding exactly the machine `vm1`. -/
def goodEntries : DirListing := [some goodEntry]

/-- The key/value pairs of a machine table carrying the extra key
`color`, which is outside the schema. -/
def badMachineKvs : List (String × config.TomlValue) :=
  [("disk", config.TomlValue.str "./disk.qcow2"),
   ("cpus", config.TomlValue.int 2),
   ("memory", config.TomlValue.int 2048),
   ("kvm", config.TomlValue.bool true),
   ("uefi", config.TomlValue.bool false),
   ("video", config.TomlValue.str "std"),
   ("color", config.TomlValue.str "red")]

/-- A machine.toml document with the extra key `color`, which is outside
the schema. -/
def badDoc : List (String × config.TomlValue) :=
  [("machine", config.TomlValue.table badMachineKvs)]

/-- A machine directory entry named `vm1` whose config file holds
`badDoc`. -/
def badEntry : DirEntry :=
  { name := "vm1", isDir := true,
    config := some (config.FileContent.toml badDoc) }

/-- The registry entry that `get_machines` builds for `goodEntry`. -/
def goodMachine : MachineEntry :=
  { name := "vm1",
    config := { machine := { disk := "./disk.qcow2", cpus := 2, memory := 2048,
                             kvm := true, uefi := false,
                             video := config.VideoOption.Std } } }

/-- The argument list synthesized for `goodMachine` under `md/vm1`. -/
def goodLaunchArgs : List String :=
  ["-smp", "2", "-m", "2048M", "-enable-kvm", "-vga", "std",
   "md/vm1/./disk.qcow2"]

/-- A machine directory whose `machine.toml` cannot be read. -/
def noConfigEntry : DirEntry :=
  { name := "vm2", isDir := true, config := none }

/-- A plain file sitting in the machines directory. -/
def fileEntry : DirEntry :=
  { name := "notes.txt", isDir := false, config := none }

/-- The default config with uefi enabled. -/
def uefiConfig : config.Config :=
  { machine := { disk := "./disk.qcow2", cpus := 2, memory := 2048,
                 kvm := true, uefi := true, video := config.VideoOption.Std } }

/-- The default config with an absolute disk path. -/
def absDiskConfig : config.Config :=
  { machine := { disk := "/vm/disk.qcow2", cpus := 2, memory := 2048,
                 kvm := true, uefi := false, video := config.VideoOption.Std } }

/-! ### Helper lemmas on decimal rendering and string shapes -/

theorem digitChar_ne_dash (n : Nat) : Nat.digitChar n ≠ '-' := by
  match n with
  | 0 | 1 | 2 | 3 | 4 | 5 | 6 | 7 | 8 | 9 | 10 | 11 | 12 | 13 | 14 | 15 =>
    decide
  | m + 16 =>
    have h16 : Nat.digitChar (m + 16) = '*' := by
      unfold Nat.digitChar
      repeat rw [if_neg (by omega)]
    rw [h16]
    decide

theorem toDigitsCore_ne_dash (f : Nat) : ∀ (n : Nat) (acc : List Char),
    (∀ c ∈ acc, c ≠ '-') → ∀ c ∈ Nat.toDigitsCore 10 f n acc, c ≠ '-' := by
  induction f with
  | zero =>
    intro n acc h
    simpa [Nat.toDigitsCore] using h
  | succ f ih =>
    intro n acc h c hc
    simp only [Nat.toDigitsCore] at hc
    have hcons : ∀ x ∈ Nat.digitChar (n % 10) :: acc, x ≠ '-' := by
      intro x hx
      rcases List.mem_cons.mp hx with hx | hx
      · subst hx; exact digitChar_ne_dash _
      · exact h x hx
    split at hc
    · exact hcons c hc
    · exact ih (n / 10) (Nat.digitChar (n % 10) :: acc) hcons c hc

theorem natRepr_no_dash (n : Nat) : ∀ c ∈ (Nat.repr n).data, c ≠ '-' :=
  toDigitsCore_ne_dash (n + 1) n [] (by intro c hc; cases hc)

theorem natRepr_ne_drive (n : Nat) : Nat.repr n ≠ "-drive" := by
  intro h
  have hd : (Nat.repr n).data = "-drive".data := congrArg String.data h
  have hm : '-' ∈ (Nat.repr n).data := by
    rw [hd]; decide
  exact natRepr_no_dash n '-' hm rfl

theorem append_M_ne_drive (s : String) : s ++ "M" ≠ "-drive" := by
  intro h
  have hd : s.data ++ "M".data = "-drive".data := by
    rw [← String.data_append, h]
  have hl : (s.data ++ ['M']).getLast? = some 'M' := List.getLast?_concat _
  rw [hd] at hl
  exact absurd hl (by decide)

theorem pflash_append_ne_drive (s : String) :
    "if=pflash,format=raw,file=" ++ s ≠ "-drive" := by
  intro h
  have hd : "if=pflash,format=raw,file=".data ++ s.data = "-drive".data := by
    rw [← String.data_append, h]
  have hh : ("if=pflash,format=raw,file=".data ++ s.data).head? = some 'i' := rfl
  rw [hd] at hh
  exact absurd hh (by decide)

/-! ### Helper lemmas on the registry scan -/

theorem getMachines_ok_append (dir : String) (pre : DirListing) :
    ∀ (l : List MachineEntry) (rest : DirListing) (err : Error),
    getMachines dir pre = Except.ok l →
    getMachines dir rest = Except.error err →
    getMachines dir (pre ++ rest) = Except.error err := by
  induction pre with
  | nil =>
    intro l rest err _ hrest
    simpa using hrest
  | cons a pre ih =>
    intro l rest err h hrest
    match a with
    | none =>
      simp only [getMachines] at h
      simpa only [List.cons_append, getMachines] using ih l rest err h hrest
    | some e =>
      by_cases hd : e.isDir
      · cases hc : e.config with
        | none =>
          simp only [getMachines, hd, if_true, hc] at h
          simp only [List.cons_append, getMachines, hd, if_true, hc]
          exact ih l rest err h hrest
        | some content =>
          cases hfs : config.fromStr content with
          | ok cfg =>
            simp only [getMachines, hd, if_true, hc, hfs] at h
            cases hp : getMachines dir pre with
            | ok l₂ =>
              simp only [List.cons_append, getMachines, hd, if_true, hc, hfs]
              have h2 := ih l₂ rest err hp hrest
              show Except.map _ (getMachines dir (pre ++ rest)) = Except.error err
              rw [h2]
              rfl
            | error e₂ =>
              rw [hp] at h
              exact absurd h (by simp [Except.map])
          | error msg =>
            simp only [getMachines, hd, if_true, hc, hfs] at h
            exact absurd h (by simp)
      · simp only [getMachines, hd, if_false] at h
        simp only [List.cons_append, getMachines, hd, if_false]
        exact ih l rest err h hrest

theorem getMachines_error_cause (dir : String) (entries : DirListing) :
    ∀ (err : Error), getMachines dir entries = Except.error err →
    ∃ e content msg, some e ∈ entries ∧ e.isDir = true ∧
      e.config = some content ∧ config.fromStr content = Except.error msg := by
  induction entries with
  | nil =>
    intro err h
    simp [getMachines] at h
  | cons a rest ih =>
    intro err h
    match a with
    | none =>
      simp only [getMachines] at h
      obtain ⟨e, c, m, hm, h1, h2, h3⟩ := ih err h
      exact ⟨e, c, m, List.mem_cons_of_mem _ hm, h1, h2, h3⟩
    | some e =>
      by_cases hd : e.isDir
      · cases hc : e.config with
        | none =>
          simp only [getMachines, hd, if_true, hc] at h
          obtain ⟨e', c, m, hm, h1, h2, h3⟩ := ih err h
          exact ⟨e', c, m, List.mem_cons_of_mem _ hm, h1, h2, h3⟩
        | some content =>
          cases hfs : config.fromStr content with
          | ok cfg =>
            simp only [getMachines, hd, if_true, hc, hfs] at h
            cases hp : getMachines dir rest with
            | ok l₂ =>
              rw [hp] at h
              exact absurd h (by simp [Except.map])
            | error e₂ =>
              obtain ⟨e', c, m, hm, h1, h2, h3⟩ := ih e₂ hp
              exact ⟨e', c, m, List.mem_cons_of_mem _ hm, h1, h2, h3⟩
          | error msg =>
            exact ⟨e, content, msg, List.mem_cons_self _ _, hd, hc, hfs⟩
      · simp only [getMachines, hd, if_false] at h
        obtain ⟨e', c, m, hm, h1, h2, h3⟩ := ih err h
        exact ⟨e', c, m, List.mem_cons_of_mem _ hm, h1, h2, h3⟩

/-! ### Helper lemmas on the synthesized argument list -/

theorem launch_getLast (cfg : config.Config) (dir : String)
    (cdRom : Option String) :
    (config.constructLaunchCommand cfg dir cdRom).getLast? =
      some (config.resolvedDiskPath cfg dir) := by
  unfold config.constructLaunchCommand
  exact List.getLast?_concat _

theorem count_drive_base (c m : Nat) :
    List.count "-drive" ["-smp", Nat.repr c, "-m", Nat.repr m ++ "M"] = 0 := by
  rw [List.count_eq_zero]
  intro hmem
  rcases List.mem_cons.mp hmem with h | hmem
  · exact absurd h (by decide)
  rcases List.mem_cons.mp hmem with h | hmem
  · exact natRepr_ne_drive c h.symm
  rcases List.mem_cons.mp hmem with h | hmem
  · exact absurd h (by decide)
  rcases List.mem_cons.mp hmem with h | hmem
  · exact append_M_ne_drive (Nat.repr m) h.symm
  · exact absurd hmem (List.not_mem_nil _)

theorem count_drive_kvm (b : Bool) :
    List.count "-drive" (if b then ["-enable-kvm"] else []) = 0 := by
  cases b <;> decide

theorem count_drive_video (v : config.VideoOption) :
    List.count "-drive" (config.videoArgs v) = 0 := by
  cases v <;> decide

theorem count_drive_cdrom (c : Option String) (h : c ≠ some "-drive") :
    List.count "-drive" (config.cdRomArgs c) = 0 := by
  cases c with
  | none => decide
  | some p =>
    rw [List.count_eq_zero]
    intro hmem
    rcases List.mem_cons.mp hmem with h2 | hmem
    · exact absurd h2 (by decide)
    rcases List.mem_cons.mp hmem with h2 | hmem
    · exact h (by rw [h2])
    · exact absurd hmem (List.not_mem_nil _)

theorem count_drive_disk (d : String) (h : d ≠ "-drive") :
    List.count "-drive" [d] = 0 := by
  rw [List.count_eq_zero]
  intro hmem
  rcases List.mem_cons.mp hmem with h2 | hmem
  · exact h h2.symm
  · exact absurd hmem (List.not_mem_nil _)

theorem count_drive_uefi (dir : String) :
    List.count "-drive"
      ["-drive", config.ovmfCodeArg, "-drive", config.ovmfVarsArg dir] = 2 := by
  have h1 : (config.ovmfCodeArg == "-drive") = false := by decide
  have h2 : (config.ovmfVarsArg dir == "-drive") = false :=
    beq_eq_false_iff_ne.mpr (by unfold config.ovmfVarsArg
                                exact pflash_append_ne_drive _)
  simp [List.count_cons, List.count_nil, h1, h2]

/-! ### Claim C5 -/

/-- C5: for every (config, containingDir, cdRomPath) input to the
synthesizer, the resolved disk path is the last element of the produced
argument sequence, regardless of which optional flags (kvm, uefi, video,
cdrom) were emitted before it. -/
theorem c5_disk_path_is_last_token (cfg : config.Config) (dir : String)
    (cdRom : Option String) :
    (config.constructLaunchCommand cfg dir cdRom).getLast? =
      some (config.resolvedDiskPath cfg dir) :=
  launch_getLast cfg dir cdRom

/-! ### Claim C6 -/

/-- C6: with uefi disabled no `-drive` firmware flags appear in the
synthesized argument sequence; with uefi enabled exactly two `-drive`
flags appear, the first introducing the fixed read-only system firmware
image and the second referencing `<containingDir>/ovmf_vars.fd` (the two
appear consecutively in that order).  The hypotheses rule out the
degenerate inputs in which the CD-ROM path or the resolved disk path is
itself the literal string `-drive`. -/
theorem c6_uefi_firmware_drive_flags (cfg : config.Config) (dir : String)
    (cdRom : Option String)
    (h₁ : cdRom ≠ some "-drive")
    (h₂ : config.resolvedDiskPath cfg dir ≠ "-drive") :
    (cfg.machine.uefi = false →
      List.count "-drive" (config.constructLaunchCommand cfg dir cdRom) = 0) ∧
    (cfg.machine.uefi = true →
      List.count "-drive" (config.constructLaunchCommand cfg dir cdRom) = 2 ∧
      List.IsInfix
        ["-drive", config.ovmfCodeArg, "-drive", config.ovmfVarsArg dir]
        (config.constructLaunchCommand cfg dir cdRom)) := by
  constructor
  · intro hu
    simp only [config.constructLaunchCommand, List.count_append, hu,
      Bool.false_eq_true, if_false, List.count_nil]
    rw [count_drive_base, count_drive_kvm, count_drive_video,
      count_drive_cdrom cdRom h₁, count_drive_disk _ h₂]
  · intro hu
    refine ⟨?_, ?_⟩
    · simp only [config.constructLaunchCommand, List.count_append, hu, if_true]
      rw [count_drive_base, count_drive_kvm, count_drive_video,
        count_drive_cdrom cdRom h₁, count_drive_disk _ h₂, count_drive_uefi]
    · refine ⟨["-smp", Nat.repr cfg.machine.cpus, "-m",
          Nat.repr cfg.machine.memory ++ "M"]
          ++ (if cfg.machine.kvm then ["-enable-kvm"] else []),
        config.videoArgs cfg.machine.video ++ config.cdRomArgs cdRom
          ++ [config.resolvedDiskPath cfg dir], ?_⟩
      simp [config.constructLaunchCommand, hu, List.append_assoc]

/-- Witness for C6 at a concrete uefi-enabled config. -/
theorem c6_uefi_firmware_drive_flags_witness :
    List.count "-drive" (config.constructLaunchCommand uefiConfig "md" none) = 2 ∧
    List.IsInfix
      ["-drive", config.ovmfCodeArg, "-drive", config.ovmfVarsArg "md"]
      (config.constructLaunchCommand uefiConfig "md" none) :=
  (c6_uefi_firmware_drive_flags uefiConfig "md" none
    (by decide) (by decide)).2 rfl

/-! ### Claim C7 -/

/-- C7: the synthesizer resolves the disk path so that an absolute
declared disk path is used verbatim and a relative declared disk path is
joined under the containing directory; the resolved path is observed as
the trailing token of the argument list. -/
theorem c7_disk_path_resolution (cfg : config.Config) (dir : String)
    (cdRom : Option String) :
    (isAbsolute cfg.machine.disk = true →
      (config.constructLaunchCommand cfg dir cdRom).getLast? =
        some cfg.machine.disk) ∧
    (isAbsolute cfg.machine.disk = false →
      (config.constructLaunchCommand cfg dir cdRom).getLast? =
        some (pathJoin dir cfg.machine.disk)) := by
  constructor <;> intro h <;> rw [launch_getLast] <;>
    simp [config.resolvedDiskPath, h]

/-- Witness for C7 at an absolute and at a relative disk path. -/
theorem c7_disk_path_resolution_witness :
    (config.constructLaunchCommand absDiskConfig "md" none).getLast? =
      some "/vm/disk.qcow2" ∧
    (config.constructLaunchCommand config.Config.default "md" none).getLast? =
      some "md/./disk.qcow2" :=
  ⟨(c7_disk_path_resolution absDiskConfig "md" none).1 (by decide),
   (c7_disk_path_resolution config.Config.default "md" none).2 (by decide)⟩

theorem deserializeMachine_unknown (kvs : List (String × config.TomlValue))
    (h : ∃ kv ∈ kvs, kv.fst ∉ config.knownMachineKeys) :
    ∃ msg, config.deserializeMachine kvs = Except.error msg := by
  unfold config.deserializeMachine
  cases hf : kvs.find? (fun kv => !(config.knownMachineKeys.contains kv.fst)) with
  | some kv' => exact ⟨_, rfl⟩
  | none =>
    exfalso
    obtain ⟨kv, hmem, hnk⟩ := h
    have := List.find?_eq_none.mp hf kv hmem
    simp only [Bool.not_eq_true', Bool.not_eq_false] at this
    exact hnk (by simpa using this)

theorem deserializeConfig_unknown (doc : List (String × config.TomlValue))
    (hk : (∃ kv ∈ doc, kv.fst ≠ "machine") ∨
          (∃ kvs, config.lookupKey doc "machine" =
              some (config.TomlValue.table kvs) ∧
            ∃ kv ∈ kvs, kv.fst ∉ config.knownMachineKeys)) :
    ∃ msg, config.deserializeConfig doc = Except.error msg := by
  unfold config.deserializeConfig
  cases hf : doc.find? (fun kv => kv.fst != "machine") with
  | some kv' => exact ⟨_, rfl⟩
  | none =>
    rcases hk with ⟨kv, hmem, hne⟩ | ⟨kvs, hlk, kv, hmem, hnk⟩
    · exfalso
      have := List.find?_eq_none.mp hf kv hmem
      simp only [bne_iff_ne, ne_eq, not_not] at this
      exact hne this
    · rw [hlk]
      obtain ⟨msg, hm⟩ := deserializeMachine_unknown kvs ⟨kv, hmem, hnk⟩
      refine ⟨msg, ?_⟩
      show Except.map config.Config.mk (config.deserializeMachine kvs) =
        Except.error msg
      rw [hm]
      rfl

/-! ### Claim C4 -/

/-- C4: a config file containing a key outside the schema (either a
top-level key other than `machine`, or a key of the machine table outside
the field list) fails deserialization, and during a registry listing such
an entry aborts the whole scan with a `Deserialize` error naming that
entry's config file — no machine list is returned. -/
theorem c4_unknown_key_aborts_listing (dir : String) (pre post : DirListing)
    (e : DirEntry) (doc : List (String × config.TomlValue))
    (l : List MachineEntry)
    (hdir : e.isDir = true)
    (hcfg : e.config = some (config.FileContent.toml doc))
    (hk : (∃ kv ∈ doc, kv.fst ≠ "machine") ∨
          (∃ kvs, config.lookupKey doc "machine" =
              some (config.TomlValue.table kvs) ∧
            ∃ kv ∈ kvs, kv.fst ∉ config.knownMachineKeys))
    (hpre : getMachines dir pre = Except.ok l) :
    (∃ msg, config.fromStr (config.FileContent.toml doc) = Except.error msg) ∧
    (∃ msg, getMachines dir (pre ++ some e :: post) =
      Except.error (Error.Deserialize
        (pathJoin (pathJoin dir e.name) "machine.toml") msg)) := by
  obtain ⟨msg, hmsg⟩ := deserializeConfig_unknown doc hk
  have hfs : config.fromStr (config.FileContent.toml doc) = Except.error msg :=
    hmsg
  refine ⟨⟨msg, hfs⟩, ⟨msg, ?_⟩⟩
  have hhead : getMachines dir (some e :: post) =
      Except.error (Error.Deserialize
        (pathJoin (pathJoin dir e.name) "machine.toml") msg) := by
    simp only [getMachines, hdir, if_true, hcfg, hfs]
  exact getMachines_ok_append dir pre l _ _ hpre hhead

/-- Witness for C4: a config with the extra key `color` aborts the scan
of a one-entry registry with an error naming `md/vm1/machine.toml`. -/
theorem c4_unknown_key_aborts_listing_witness :
    (∃ msg, config.fromStr (config.FileContent.toml badDoc) =
      Except.error msg) ∧
    (∃ msg, getMachines "md" ([] ++ some badEntry :: []) =
      Except.error (Error.Deserialize
        (pathJoin (pathJoin "md" badEntry.name) "machine.toml") msg)) :=
  c4_unknown_key_aborts_listing "md" [] [] badEntry badDoc [] rfl rfl
    (Or.inr ⟨badMachineKvs, rfl,
      ⟨("color", config.TomlValue.str "red"),
        List.mem_cons_of_mem _ (List.mem_cons_of_mem _ (List.mem_cons_of_mem _
          (List.mem_cons_of_mem _ (List.mem_cons_of_mem _
            (List.mem_cons_of_mem _ (List.mem_cons_self _ _)))))),
        by decide⟩⟩)
    rfl

/-! ### Claim C10 -/

/-- C10: the registry scan silently omits an immediate subdirectory whose
config file cannot be read, ignores non-directory items and unreadable
items, and fails only when some entry's config file was read successfully
but failed to parse. -/
theorem c10_scan_skip_and_failure_conditions (dir : String) (e : DirEntry)
    (rest entries : DirListing) :
    (e.config = none →
      getMachines dir (some e :: rest) = getMachines dir rest) ∧
    (e.isDir = false →
      getMachines dir (some e :: rest) = getMachines dir rest) ∧
    (getMachines dir (none :: rest) = getMachines dir rest) ∧
    (∀ err, getMachines dir entries = Except.error err →
      ∃ e' content msg, some e' ∈ entries ∧ e'.isDir = true ∧
        e'.config = some content ∧
        config.fromStr content = Except.error msg) := by
  refine ⟨?_, ?_, ?_, ?_⟩
  · intro hc
    cases hd : e.isDir
    · simp only [getMachines, hd, Bool.false_eq_true, if_false]
    · simp only [getMachines, hd, if_true, hc]
  · intro hd
    simp only [getMachines, hd, Bool.false_eq_true, if_false]
  · simp only [getMachines]
  · exact getMachines_error_cause dir entries

/-- Witness for C10 at concrete listings: an unreadable config, a plain
file, an unreadable item, and a registry whose single entry fails to
parse. -/
theorem c10_scan_skip_and_failure_conditions_witness :
    (getMachines "md" [some noConfigEntry] = getMachines "md" []) ∧
    (getMachines "md" [some fileEntry] = getMachines "md" []) ∧
    (getMachines "md" [none] = getMachines "md" []) ∧
    (∃ e' content msg, some e' ∈ ([some badEntry] : DirListing) ∧
      e'.isDir = true ∧ e'.config = some content ∧
      config.fromStr content = Except.error msg) :=
  ⟨(c10_scan_skip_and_failure_conditions "md" noConfigEntry [] []).1 rfl,
   (c10_scan_skip_and_failure_conditions "md" fileEntry [] []).2.1 rfl,
   (c10_scan_skip_and_failure_conditions "md" fileEntry [] []).2.2.1,
   (c10_scan_skip_and_failure_conditions "md" fileEntry []
      [some badEntry]).2.2.2
     (Error.Deserialize "md/vm1/machine.toml" "unknown field color") rfl⟩

/-! ### Claim C8 -/

/-- C8: `new_machine` fails with the name-collision error whenever any
entry of the `read_dir` snapshot (directory or not, valid or not) already
carries the requested name, and the directory-creation step is exclusive:
when the name exists in the filesystem at creation time the operation
fails rather than reusing the existing directory. -/
theorem c8_create_name_collision (dir : String) (snapshot : DirListing)
    (fsAtCreate : List String) (name : String) (sz : Nat) :
    ((∃ e, some e ∈ snapshot ∧ e.name = name) →
      (newMachine dir snapshot fsAtCreate name sz).fst =
        Outcome.err Error.NewMachineDirectoryExists) ∧
    (name ∈ fsAtCreate →
      (newMachine dir snapshot fsAtCreate name sz).fst =
          Outcome.err Error.NewMachineDirectoryExists ∨
      (newMachine dir snapshot fsAtCreate name sz).fst =
          Outcome.err Error.CreateMachineDirectoryFail) := by
  constructor
  · rintro ⟨e, he, hname⟩
    have hany : (snapshot.any fun item =>
        item.map DirEntry.name == some name) = true :=
      List.any_eq_true.mpr ⟨some e, he, by simp [hname]⟩
    unfold newMachine
    rw [if_pos hany]
  · intro hf
    unfold newMachine
    by_cases hany : (snapshot.any fun item =>
        item.map DirEntry.name == some name) = true
    · rw [if_pos hany]
      left
      rfl
    · rw [if_neg hany, if_pos (List.elem_iff.mpr hf)]
      right
      rfl

/-- Witness for C8: creating `vm1` over an occupied snapshot fails with
the collision error, and creating it when the directory appears between
the check and the `create_dir` call also fails. -/
theorem c8_create_name_collision_witness :
    (newMachine "md" goodEntries [] "vm1" 2048).fst =
        Outcome.err Error.NewMachineDirectoryExists ∧
    ((newMachine "md" [] ["vm1"] "vm1" 2048).fst =
        Outcome.err Error.NewMachineDirectoryExists ∨
     (newMachine "md" [] ["vm1"] "vm1" 2048).fst =
        Outcome.err Error.CreateMachineDirectoryFail) :=
  ⟨(c8_create_name_collision "md" goodEntries [] "vm1" 2048).1
      ⟨goodEntry, List.mem_cons_self _ _, rfl⟩,
   (c8_create_name_collision "md" [] ["vm1"] "vm1" 2048).2
      (List.mem_cons_self _ _)⟩

/-! ### Claim C9 -/

/-- C9: for an existing machine, remove without confirmation returns the
non-error confirmation-required outcome (a warning naming the path), the
directory listing is untouched so a subsequent `ls` reports the same
machines, and only remove with confirmation deletes the entry's
directory. -/
theorem c9_remove_requires_confirmation (dir : String) (entries : DirListing)
    (name : String) (ms : List MachineEntry)
    (hms : getMachines dir entries = Except.ok ms)
    (hfind : (ms.find? (fun m => m.name == name)).isSome = true) :
    ((machineOp dir entries name (MachineCommand.remove false) 0).outcome =
        Outcome.ok ()) ∧
    ((machineOp dir entries name (MachineCommand.remove false) 0).entries =
        entries) ∧
    ((machineOp dir entries name (MachineCommand.remove false) 0).warnings ≠
        []) ∧
    (lsOp dir
        (machineOp dir entries name (MachineCommand.remove false) 0).entries =
      lsOp dir entries) ∧
    ((machineOp dir entries name (MachineCommand.remove true) 0).entries =
        removeEntry entries name) := by
  obtain ⟨m, hm⟩ := Option.isSome_iff_exists.mp hfind
  have hbeq := List.find?_some hm
  have hname : m.name = name := eq_of_beq (by simpa using hbeq)
  simp only [machineOp, hms, hm, hname, Bool.false_eq_true, if_false, if_true]
  exact ⟨trivial, trivial, List.cons_ne_nil _ _, trivial, trivial⟩

/-- Witness for C9 on the one-machine registry `goodEntries`. -/
theorem c9_remove_requires_confirmation_witness :
    ((machineOp "md" goodEntries "vm1" (MachineCommand.remove false) 0).outcome =
        Outcome.ok ()) ∧
    ((machineOp "md" goodEntries "vm1" (MachineCommand.remove false) 0).entries =
        goodEntries) ∧
    ((machineOp "md" goodEntries "vm1" (MachineCommand.remove false) 0).warnings ≠
        []) ∧
    (lsOp "md"
        (machineOp "md" goodEntries "vm1" (MachineCommand.remove false) 0).entries =
      lsOp "md" goodEntries) ∧
    ((machineOp "md" goodEntries "vm1" (MachineCommand.remove true) 0).entries =
        removeEntry goodEntries "vm1") :=
  c9_remove_requires_confirmation "md" goodEntries "vm1" [goodMachine] rfl rfl

/-! ### Claim C1 -/

/-- C1 (code behavior): a successful create returns `Ok` while the
`qemu-img` provisioning child has only been spawned — no wait on it is
ever recorded, so create reports success with the provisioning subprocess
still pending, contrary to the claim's synchronous contract. -/
theorem c1_create_returns_before_provisioning :
    (newMachine "md" [] [] "vm1" 2048).fst = Outcome.ok () ∧
    (newMachine "md" [] [] "vm1" 2048).snd =
      [ProcEvent.spawned "qemu-img"
        ["create", "-f", "qcow2", "md/vm1/disk.qcow2", "2048M"]] ∧
    ((newMachine "md" [] [] "vm1" 2048).snd.any ProcEvent.isWaited) = false :=
  ⟨rfl, rfl, rfl⟩

/-! ### Claim C2 -/

/-- C2 (code behavior): run waits for the hypervisor child (a waited
event carrying the child's exit code is recorded), but the operation's
result is the bare `Ok ()` for every exit code, so the exit code is not
propagated to the caller, contrary to the claim. -/
theorem c2_run_waits_but_discards_exit_code : ∀ exitCode : Int,
    (machineOp "md" goodEntries "vm1" MachineCommand.run exitCode).outcome =
      Outcome.ok () ∧
    (machineOp "md" goodEntries "vm1" MachineCommand.run exitCode).events =
      [ProcEvent.spawned "qemu-system-x86_64" goodLaunchArgs,
       ProcEvent.waited "qemu-system-x86_64" exitCode] :=
  fun _ => ⟨rfl, rfl⟩

/-! ### Claim C3 -/

/-- C3 (code behavior): with an invalid config file in the registry, the
machine operation hits the `Err(_) => todo!()` arm and panics instead of
reporting the deserialization failure as an error value — an expected
failure path (bad config) that panics, contrary to the claim. -/
theorem c3_bad_config_panics_in_machine_op :
    (machineOp "md" [some badEntry] "vm1"
        (MachineCommand.remove false) 0).outcome =
      Outcome.panic "not yet implemented" :=
  rfl
